import Mathlib

/-!
Shallow embedding of the `WarmPool` Durable Object from `src/pool.ts`
(cf-container-warm-pool).  The pool tracks warm container UUIDs, a user-ID to
container-UUID assignment map, a learned `knownMaxInstances` ceiling and a
per-pass `capacityExhausted` flag.  External collaborators (the container
backend and durable storage) are modelled as explicit parameters:

* a liveness oracle `q : String → Option ContainerStatus` — `q uuid = some st`
  means the `getState()` RPC returned status `st`, `none` means the RPC threw;
* a stream `out : Nat → StartOutcome` of results for successive
  `startAndWaitForPorts()` attempts, each carrying the UUID produced by
  `crypto.randomUUID()` for that attempt and, on failure, the error message;
* `stopOk : String → Bool` — whether the backend `stop()` RPC succeeds.

JS `Set`/`Map` iterate in insertion order, so both are modelled as
insertion-ordered lists (the map as a key-value list).  Durable storage is a
`Storage` record mirroring the keys written by `persist()`.
-/

namespace WarmPool

/-- Resolved pool configuration (`Required<PoolConfigInternal>`). -/
structure PoolConfig where
  warmTarget : Nat
  refreshInterval : Nat
deriving DecidableEq

/-- DEFAULT_CONFIG from pool.ts: warmTarget 5, refreshInterval 10 seconds. -/
def DEFAULT_CONFIG : PoolConfig := { warmTarget := 5, refreshInterval := 10000 }

/-- Caller-supplied configuration with optional fields (`PoolConfigInternal`). -/
structure PoolConfigInternal where
  warmTarget : Option Nat
  refreshInterval : Option Nat

/-- Spread-merge `{ ...DEFAULT_CONFIG, ...config }`. -/
def mergeConfig (c : PoolConfigInternal) : PoolConfig :=
  { warmTarget := c.warmTarget.getD DEFAULT_CONFIG.warmTarget,
    refreshInterval := c.refreshInterval.getD DEFAULT_CONFIG.refreshInterval }

/-- The status field of the state returned by `Container.getState()`. -/
inductive ContainerStatus where
  | running
  | stopping
  | stopped
  | healthy
  | stoppedWithCode
deriving DecidableEq

/-- Durable-storage contents: the keys written by `persist()`,
`recordCapacityLimit()`, `configure()` and `setAlarm()`. -/
structure Storage where
  warmContainers : List String
  assignments : List (String × String)
  knownMaxInstances : Option Nat
  config : Option PoolConfig
  alarmTime : Option Nat
deriving DecidableEq

/-- In-memory state of the WarmPool Durable Object plus its storage. -/
structure PoolState where
  config : PoolConfig
  warmContainers : List String
  assignments : List (String × String)
  startingContainers : List String
  knownMaxInstances : Option Nat
  capacityExhausted : Bool
  storage : Storage
deriving DecidableEq

/-- JS `Set.add`: no-op when the element is already present, else append. -/
def setAdd (l : List String) (x : String) : List String :=
  if x ∈ l then l else l ++ [x]

/-- JS `Set.delete`: removes the element (sets hold no duplicates, so removing
every occurrence from the modelling list coincides with `Set.delete`). -/
def setDelete : List String → String → List String
  | [], _ => []
  | y :: rest, x => if y = x then setDelete rest x else y :: setDelete rest x

/-- JS `Map.get`: value of the first (unique) pair with the given key. -/
def mapGet : List (String × String) → String → Option String
  | [], _ => none
  | p :: rest, k => if p.1 = k then some p.2 else mapGet rest k

/-- JS `Map.delete` by key. -/
def mapDelete : List (String × String) → String → List (String × String)
  | [], _ => []
  | p :: rest, k => if p.1 = k then mapDelete rest k else p :: mapDelete rest k

/-- JS `Map.set`: replace in place when the key exists, else append. -/
def mapSet (l : List (String × String)) (k v : String) : List (String × String) :=
  if (mapGet l k).isSome then
    l.map (fun p => if p.1 = k then (k, v) else p)
  else l ++ [(k, v)]

/-- Values of the assignment map, in iteration order. -/
def assignedValues (l : List (String × String)) : List String := l.map Prod.snd

/-- this.warmContainers.size -/
def warmCount (s : PoolState) : Nat := s.warmContainers.length

/-- this.assignments.size -/
def assignedCount (s : PoolState) : Nat := s.assignments.length

/-- this.warmContainers.size + this.assignments.size -/
def totalCount (s : PoolState) : Nat := warmCount s + assignedCount s

/-- Every container UUID currently tracked as warm or assigned. -/
def trackedIds (s : PoolState) : List String :=
  s.warmContainers ++ assignedValues s.assignments

/-- persist(): writes warmContainers, assignments and knownMaxInstances to
storage (a null ceiling deletes the storage key, i.e. stores `none`). -/
def persist (s : PoolState) : PoolState :=
  { s with storage := { s.storage with
      warmContainers := s.warmContainers,
      assignments := s.assignments,
      knownMaxInstances := s.knownMaxInstances } }

/-- remainingCapacity(): `none` encodes Infinity (no ceiling known);
otherwise `Math.max(0, knownMaxInstances - total)`, which is Nat
truncated subtraction. -/
def remainingCapacity (s : PoolState) : Option Nat :=
  match s.knownMaxInstances with
  | none => none
  | some m => some (m - totalCount s)

/-- The test `this.remainingCapacity() <= 0` (false for Infinity). -/
def capacityDepleted (s : PoolState) : Bool :=
  match remainingCapacity s with
  | none => false
  | some n => n = 0

/-- The Cloudflare max_instances error signal matched by
`isMaxInstancesError`. -/
def maxInstancesMessage : String :=
  "Maximum number of running container instances exceeded"

/-- Does `needle` occur as a prefix of `hay`? -/
def startsWith : List Char → List Char → Bool
  | [], _ => true
  | _ :: _, [] => false
  | a :: as, b :: bs => a = b && startsWith as bs

/-- Does `needle` occur contiguously anywhere in `hay`?
(JS `String.includes`.) -/
def containsSeq : List Char → List Char → Bool
  | needle, [] => needle.isEmpty
  | needle, c :: rest => startsWith needle (c :: rest) || containsSeq needle rest

/-- isMaxInstancesError: `message.includes('Maximum number of running
container instances exceeded')`. -/
def isMaxInstancesError (msg : String) : Bool :=
  containsSeq maxInstancesMessage.toList msg.toList

/-- recordCapacityLimit(): infer the ceiling as the current total (the failed
attempt was never committed to either set), set the per-pass exhausted flag,
and persist the ceiling to storage. -/
def recordCapacityLimit (s : PoolState) : PoolState :=
  { s with
      knownMaxInstances := some (totalCount s),
      capacityExhausted := true,
      storage := { s.storage with knownMaxInstances := some (totalCount s) } }

/-- Outcome of one backend start attempt, carrying the UUID generated by
`crypto.randomUUID()` for that attempt; `err` carries the thrown message. -/
inductive StartOutcome where
  | ok (uuid : String)
  | err (uuid : String) (msg : String)
deriving DecidableEq

/-- The UUID generated for the attempt. -/
def StartOutcome.uuid : StartOutcome → String
  | .ok u => u
  | .err u _ => u

/-- startContainer(): generate a UUID, add it to `startingContainers`, call
`startAndWaitForPorts()`; on success return the UUID, on a max_instances error
call `recordCapacityLimit()`, otherwise just log; finally remove the UUID from
`startingContainers`.  Returns `none` on any failure. -/
def startContainer (s : PoolState) (o : StartOutcome) : Option String × PoolState :=
  let s1 := { s with startingContainers := setAdd s.startingContainers o.uuid }
  let r :=
    match o with
    | .ok u => (some u, s1)
    | .err _ msg =>
        (none, if isMaxInstancesError msg then recordCapacityLimit s1 else s1)
  (r.1, { r.2 with startingContainers := setDelete r.2.startingContainers o.uuid })

/-- isContainerRunning(): containers currently starting are assumed running;
otherwise the container counts as running only when `getState()` returns
status running or healthy, and a thrown RPC counts as stopped. -/
def isContainerRunning (s : PoolState) (uuid : String)
    (q : String → Option ContainerStatus) : Bool :=
  if uuid ∈ s.startingContainers then true
  else
    match q uuid with
    | some st => st = ContainerStatus.running || st = ContainerStatus.healthy
    | none => false

/-- Errors thrown by getContainer: the instance-limit message (with the
reported utilisation and ceiling) or the generic start failure. -/
inductive GetError where
  | capacityExceeded (used : Nat) (limit : Option Nat)
  | startFailed
deriving DecidableEq

/-- The part of getContainer() after the existing-assignment check: pop a warm
container, else fail fast when at the known ceiling, else start a new
container.  The returned `Nat` counts backend start calls performed. -/
def getContainerAfterLookup (s : PoolState) (userID : String) (o : StartOutcome) :
    Except GetError String × PoolState × Nat :=
  match s.warmContainers with
  | containerUUID :: rest =>
      (Except.ok containerUUID,
       persist { s with
          warmContainers := rest,
          assignments := mapSet s.assignments userID containerUUID }, 0)
  | [] =>
      if capacityDepleted s then
        (Except.error (GetError.capacityExceeded (totalCount s) s.knownMaxInstances), s, 0)
      else
        match startContainer s o with
        | (some containerUUID, s1) =>
            (Except.ok containerUUID,
             persist { s1 with assignments := mapSet s1.assignments userID containerUUID }, 1)
        | (none, s1) =>
            if s1.capacityExhausted then
              (Except.error (GetError.capacityExceeded (totalCount s1) s1.knownMaxInstances),
               s1, 1)
            else (Except.error GetError.startFailed, s1, 1)

/-- getContainer(userID): return the still-running assigned container if any,
dropping a stale assignment first; otherwise assign a warm container or start
a new one.  The returned `Nat` counts backend start calls performed. -/
def getContainer (s : PoolState) (userID : String)
    (q : String → Option ContainerStatus) (o : StartOutcome) :
    Except GetError String × PoolState × Nat :=
  match mapGet s.assignments userID with
  | some existing =>
      if isContainerRunning s existing q then (Except.ok existing, s, 0)
      else
        getContainerAfterLookup
          (persist { s with assignments := mapDelete s.assignments userID }) userID o
  | none => getContainerAfterLookup s userID o

/-- The scan in removeContainer(): delete the first assignment entry whose
value is the UUID (the loop breaks after one removal). -/
def removeFirstAssignment : List (String × String) → String →
    List (String × String) × Bool
  | [], _ => ([], false)
  | p :: rest, uuid =>
      if p.2 = uuid then (rest, true)
      else
        let r := removeFirstAssignment rest uuid
        (p :: r.1, r.2)

/-- removeContainer(): drop the UUID from the warm set and from the first
assignment entry pointing at it; reports whether anything was removed. -/
def removeContainer (s : PoolState) (uuid : String) : PoolState × Bool :=
  let warmRemoved := decide (uuid ∈ s.warmContainers)
  let a := removeFirstAssignment s.assignments uuid
  ({ s with
      warmContainers := setDelete s.warmContainers uuid,
      assignments := a.1 },
   warmRemoved || a.2)

/-- reportStopped(): unconditionally removeContainer then persist. -/
def reportStopped (s : PoolState) (uuid : String) : PoolState :=
  persist (removeContainer s uuid).1

/-- configure(): adopt `{ ...DEFAULT_CONFIG, ...config }` and store it. -/
def configure (s : PoolState) (c : PoolConfigInternal) : PoolState :=
  { s with
      config := mergeConfig c,
      storage := { s.storage with config := some (mergeConfig c) } }

/-- shutdownPrewarmed(): iterate a snapshot of the warm set, stop each
container via the backend, deleting it from the warm set only when the stop
succeeded; finally persist.  Assigned containers are not touched. -/
def shutdownPrewarmed (s : PoolState) (stopOk : String → Bool) : PoolState :=
  let containersToStop := s.warmContainers
  persist <| containersToStop.foldl
    (fun st u =>
      if stopOk u then { st with warmContainers := setDelete st.warmContainers u }
      else st)
    s

/-- One iteration of the checkContainerHealth loop: remove the container when
it is not running, accumulating whether anything was removed. -/
def healthStep (q : String → Option ContainerStatus)
    (acc : PoolState × Bool) (uuid : String) : PoolState × Bool :=
  if isContainerRunning acc.1 uuid q then acc
  else
    let r := removeContainer acc.1 uuid
    (r.1, acc.2 || r.2)

/-- checkContainerHealth(): health-check every tracked container (warm and
assigned) against the snapshot taken at entry, removing the stopped ones, and
persist only when something was removed. -/
def checkContainerHealth (s : PoolState) (q : String → Option ContainerStatus) :
    PoolState :=
  let allContainerUUIDs := s.warmContainers ++ assignedValues s.assignments
  let r := allContainerUUIDs.foldl (healthStep q) (s, false)
  if r.2 then persist r.1 else r.1

/-- keepWarmContainersAlive(): fires renewActivityTimeout on each warm
container, catching all errors; it never changes pool state. -/
def keepWarmContainersAlive (s : PoolState) : PoolState := s

/-- Math.min(diff, remainingCapacity()) where `none` is Infinity. -/
def minWithCapacity (d : Nat) : Option Nat → Nat
  | none => d
  | some c => min d c

/-- The scale-up loop of adjustPool(): perform up to `n` starts, stopping when
`capacityExhausted` trips, adding each started UUID to the warm set.  `k`
indexes the outcome stream; the returned index counts total attempts made. -/
def startLoop (out : Nat → StartOutcome) : Nat → PoolState → Nat → PoolState × Nat
  | 0, s, k => (s, k)
  | n + 1, s, k =>
      if s.capacityExhausted then (s, k)
      else
        match startContainer s (out k) with
        | (some uuid, s1) =>
            startLoop out n { s1 with warmContainers := setAdd s1.warmContainers uuid } (k + 1)
        | (none, s1) => startLoop out n s1 (k + 1)

/-- The probe of adjustPool(): one start attempt at the known ceiling.  On
success the cached limit is cleared, the new UUID joins the warm set and the
state is persisted; on failure the state (as left by `startContainer`) is
persisted. -/
def probeStep (s : PoolState) (o : StartOutcome) : PoolState × Option String :=
  match startContainer s o with
  | (some probeUUID, s1) =>
      (persist { s1 with
          knownMaxInstances := none,
          warmContainers := setAdd s1.warmContainers probeUUID },
       some probeUUID)
  | (none, s1) => (persist s1, none)

/-- The tail of the scale-up branch: start `min diff remainingCapacity`
containers (returning without persisting when that is zero), then persist. -/
def scaleUpLoop (out : Nat → StartOutcome) (s : PoolState) (diff k : Nat) :
    PoolState × Nat :=
  let toStart := minWithCapacity diff (remainingCapacity s)
  if toStart = 0 then (s, k)
  else
    let r := startLoop out toStart s k
    (persist r.1, r.2)

/-- adjustPool(): scale the warm set toward warmTarget.  When scaling up at a
known, fully used ceiling, probe once: a failed probe ends the pass, a
successful probe clears the ceiling and counts toward the target.  When over
target, stop the excess warm containers (keeping those whose backend stop
failed).  The returned `Nat` counts backend start attempts. -/
def adjustPool (s : PoolState) (out : Nat → StartOutcome) (stopOk : String → Bool) :
    PoolState × Nat :=
  if warmCount s < s.config.warmTarget then
    let diff := s.config.warmTarget - warmCount s
    if remainingCapacity s = some 0 ∧ s.knownMaxInstances ≠ none then
      match probeStep s (out 0) with
      | (s1, some _) => scaleUpLoop out s1 (diff - 1) 1
      | (s1, none) => (s1, 1)
    else scaleUpLoop out s diff 0
  else if s.config.warmTarget < warmCount s then
    let excess := warmCount s - s.config.warmTarget
    let containersToStop := s.warmContainers.take excess
    let stoppedContainers := containersToStop.filter stopOk
    (persist <| stoppedContainers.foldl
      (fun st u => { st with warmContainers := setDelete st.warmContainers u }) s, 0)
  else (s, 0)

/-- The body of the alarm handler's try block: health check, pool adjustment,
keep-alive. -/
def alarmBody (q : String → Option ContainerStatus) (out : Nat → StartOutcome)
    (stopOk : String → Bool) (s : PoolState) : PoolState :=
  keepWarmContainersAlive (adjustPool (checkContainerHealth s q) out stopOk).1

/-- alarm(): reset `capacityExhausted`, run the body inside try/catch (the
`body` argument returns the state reached when the body finished or threw,
together with whether it threw — modelling an arbitrary, possibly failing,
execution of the three steps), then unconditionally re-arm the alarm for
now + refreshInterval. -/
def alarm (s : PoolState) (now : Nat) (body : PoolState → PoolState × Bool) :
    PoolState :=
  let s0 := { s with capacityExhausted := false }
  let r := body s0
  { r.1 with storage := { r.1.storage with
      alarmTime := some (now + r.1.config.refreshInterval) } }

/-- One full reconciliation cycle with a non-throwing body. -/
def alarmRun (s : PoolState) (now : Nat) (q : String → Option ContainerStatus)
    (out : Nat → StartOutcome) (stopOk : String → Bool) : PoolState :=
  alarm s now (fun s0 => (alarmBody q out stopOk s0, false))

/-- The state of a freshly created pool: empty sets, no ceiling, default
configuration, empty storage. -/
def initialState : PoolState :=
  { config := DEFAULT_CONFIG,
    warmContainers := [],
    assignments := [],
    startingContainers := [],
    knownMaxInstances := none,
    capacityExhausted := false,
    storage := { warmContainers := [], assignments := [], knownMaxInstances := none,
                 config := none, alarmTime := none } }

/-- crypto.randomUUID() freshness for a single attempt: the generated UUID is
not already tracked by the pool. -/
def FreshOutcome (s : PoolState) (o : StartOutcome) : Prop :=
  o.uuid ∉ trackedIds s

/-- crypto.randomUUID() freshness for a stream of attempts: no generated UUID
is already tracked, and distinct attempts generate distinct UUIDs. -/
def FreshOutcomes (s : PoolState) (out : Nat → StartOutcome) : Prop :=
  (∀ k, (out k).uuid ∉ trackedIds s) ∧
  ∀ j k, j ≠ k → (out j).uuid ≠ (out k).uuid

/-- States reachable from a fresh pool by the public RPC surface and the alarm
handler, with backends behaving arbitrarily and generated UUIDs fresh. -/
inductive Reachable : PoolState → Prop where
  | init : Reachable initialState
  | getContainer (s : PoolState) (userID : String)
      (q : String → Option ContainerStatus) (o : StartOutcome) :
      Reachable s → FreshOutcome s o → Reachable (getContainer s userID q o).2.1
  | reportStopped (s : PoolState) (uuid : String) :
      Reachable s → Reachable (reportStopped s uuid)
  | shutdownPrewarmed (s : PoolState) (stopOk : String → Bool) :
      Reachable s → Reachable (shutdownPrewarmed s stopOk)
  | configure (s : PoolState) (c : PoolConfigInternal) :
      Reachable s → Reachable (configure s c)
  | alarmRun (s : PoolState) (now : Nat) (q : String → Option ContainerStatus)
      (out : Nat → StartOutcome) (stopOk : String → Bool) :
      Reachable s → FreshOutcomes s out → Reachable (alarmRun s now q out stopOk)

/-- The structural invariant on the two membership structures: assignment keys
and values are duplicate-free, the warm set is duplicate-free and disjoint
from the assigned values, and no start is in flight between operations. -/
def MapInv (s : PoolState) : Prop :=
  (s.assignments.map Prod.fst).Nodup ∧
  (s.assignments.map Prod.snd).Nodup ∧
  s.warmContainers.Nodup ∧
  (∀ u ∈ s.warmContainers, u ∉ assignedValues s.assignments) ∧
  s.startingContainers = []

/-- The capacity invariant: the tracked total never exceeds a known ceiling. -/
def CapInv (s : PoolState) : Prop :=
  ∀ m, s.knownMaxInstances = some m → totalCount s ≤ m

/-! Concrete backends and pool states used to evaluate the operations. -/

/-- A liveness oracle reporting every container running. -/
def allRunningQ : String → Option ContainerStatus :=
  fun _ => some ContainerStatus.running

/-- A liveness oracle reporting container "X" stopped, everything else
running. -/
def stoppedXQ : String → Option ContainerStatus :=
  fun u => if u = "X" then some ContainerStatus.stopped
    else some ContainerStatus.running

/-- A liveness oracle whose getState RPC always throws. -/
def throwingQ : String → Option ContainerStatus := fun _ => none

/-- Two assigned instances ("b" ↦ "Y", "c" ↦ "X") at a learned ceiling of 2;
the entry for "c" is stale once "X" is reported stopped. -/
def staleAtCapacityState : PoolState :=
  { initialState with
      assignments := [("b", "Y"), ("c", "X")], knownMaxInstances := some 2 }

/-- One assigned instance under a ceiling of 2, with the capacityExhausted
flag still set from an earlier capacity hit (no alarm pass has reset it). -/
def staleFlagState : PoolState :=
  { initialState with
      assignments := [("b", "Y")], knownMaxInstances := some 2,
      capacityExhausted := true }

/-- One assigned instance under a ceiling of 2, flag clear. -/
def belowCapacityState : PoolState :=
  { initialState with assignments := [("b", "Y")], knownMaxInstances := some 2 }

/-- A single (possibly stale) assignment, no ceiling known. -/
def staleEntryState : PoolState :=
  { initialState with assignments := [("c", "X")] }

/-- Two assigned instances exactly at a learned ceiling of 2. -/
def atCapacityState : PoolState :=
  { initialState with
      assignments := [("a", "X"), ("b", "Y")], knownMaxInstances := some 2 }

/-- A warmTarget-3 configuration. -/
def target3Config : PoolConfig := { warmTarget := 3, refreshInterval := 10000 }

/-- Two assigned instances at ceiling 2 with warmTarget 3: the probe
scenario of the spec. -/
def probeScenarioState : PoolState :=
  { initialState with
      config := target3Config,
      assignments := [("a", "X"), ("b", "Y")], knownMaxInstances := some 2 }

/-- Two warm containers plus one assignment, for the shutdown scenario. -/
def warmPairState : PoolState :=
  { initialState with
      warmContainers := ["w1", "w2"], assignments := [("a", "X")] }

/-- A start-outcome stream that always succeeds with distinct UUIDs. -/
def okStream : Nat → StartOutcome :=
  fun k => StartOutcome.ok (String.append "w" (toString k))

deriving instance DecidableEq for Except

/-! Basic lemmas about the list-backed set and map operations. -/

theorem mem_setAdd {l : List String} {x y : String} :
    y ∈ setAdd l x ↔ y ∈ l ∨ y = x := by
  unfold setAdd
  split
  · constructor
    · exact fun h => Or.inl h
    · rintro (h | rfl) <;> assumption
  · simp

theorem setAdd_nodup {l : List String} {x : String} (h : l.Nodup) :
    (setAdd l x).Nodup := by
  unfold setAdd
  split
  · exact h
  · rename_i hx
    refine List.Nodup.append h (List.nodup_singleton x) ?_
    intro a ha hb
    simp only [List.mem_singleton] at hb
    subst hb
    exact hx ha

theorem length_setAdd_le (l : List String) (x : String) :
    (setAdd l x).length ≤ l.length + 1 := by
  unfold setAdd
  split
  · omega
  · simp

theorem setDelete_sublist (l : List String) (x : String) :
    (setDelete l x).Sublist l := by
  induction l with
  | nil => simp [setDelete]
  | cons y rest ih =>
      unfold setDelete
      split
      · exact ih.cons y
      · exact ih.cons₂ y

theorem mem_setDelete {l : List String} {x y : String} :
    y ∈ setDelete l x ↔ y ∈ l ∧ y ≠ x := by
  induction l with
  | nil => simp [setDelete]
  | cons z rest ih =>
      show y ∈ (if z = x then setDelete rest x else z :: setDelete rest x) ↔
        y ∈ z :: rest ∧ y ≠ x
      by_cases hz : z = x
      · rw [if_pos hz, ih]
        subst hz
        simp only [List.mem_cons]
        constructor
        · exact fun h => ⟨Or.inr h.1, h.2⟩
        · rintro ⟨(rfl | h), hne⟩
          · exact absurd rfl hne
          · exact ⟨h, hne⟩
      · simp only [if_neg hz, List.mem_cons, ih]
        constructor
        · rintro (rfl | ⟨h, hne⟩)
          · exact ⟨Or.inl rfl, hz⟩
          · exact ⟨Or.inr h, hne⟩
        · rintro ⟨(rfl | h), hne⟩
          · exact Or.inl rfl
          · exact Or.inr ⟨h, hne⟩

theorem setDelete_setAdd_self {l : List String} {x : String} (h : x ∉ l) :
    setDelete (setAdd l x) x = l := by
  have hl : ∀ l : List String, x ∉ l → setDelete (l ++ [x]) x = l := by
    intro l
    induction l with
    | nil => simp [setDelete]
    | cons y rest ih =>
        intro hy
        simp only [List.mem_cons, not_or] at hy
        have hyx : ¬y = x := fun hh => hy.1 hh.symm
        calc setDelete ((y :: rest) ++ [x]) x
            = setDelete (y :: (rest ++ [x])) x := rfl
          _ = y :: setDelete (rest ++ [x]) x := by
              rw [setDelete.eq_def]
              simp [hyx]
          _ = y :: rest := by rw [ih hy.2]
  unfold setAdd
  rw [if_neg h]
  exact hl l h

theorem mapGet_eq_none_iff {l : List (String × String)} {k : String} :
    mapGet l k = none ↔ k ∉ l.map Prod.fst := by
  induction l with
  | nil => simp [mapGet]
  | cons p rest ih =>
      unfold mapGet
      split
      · subst_vars
        simp
      · simp only [List.map_cons, List.mem_cons, ih]
        constructor
        · intro h hk
          rcases hk with hk | hk
          · exact absurd hk.symm (by assumption)
          · exact h hk
        · intro h hk
          exact h (Or.inr hk)

theorem mapGet_mem {l : List (String × String)} {k v : String}
    (h : mapGet l k = some v) : (k, v) ∈ l := by
  induction l with
  | nil => simp [mapGet] at h
  | cons p rest ih =>
      unfold mapGet at h
      split at h
      · rename_i heq
        cases h
        have hkp : (k, p.2) = p := by
          obtain ⟨p1, p2⟩ := p
          simp_all
        rw [hkp]
        exact List.mem_cons_self p rest
      · exact List.mem_cons_of_mem _ (ih h)

theorem mapDelete_sublist (l : List (String × String)) (k : String) :
    (mapDelete l k).Sublist l := by
  induction l with
  | nil => simp [mapDelete]
  | cons p rest ih =>
      unfold mapDelete
      split
      · exact ih.cons p
      · exact ih.cons₂ p

theorem mapGet_mapDelete_self (l : List (String × String)) (k : String) :
    mapGet (mapDelete l k) k = none := by
  induction l with
  | nil => simp [mapDelete, mapGet]
  | cons p rest ih =>
      unfold mapDelete
      split
      · exact ih
      · unfold mapGet
        rw [if_neg (by assumption)]
        exact ih

theorem mapSet_of_none {l : List (String × String)} {k : String} (v : String)
    (h : mapGet l k = none) : mapSet l k v = l ++ [(k, v)] := by
  unfold mapSet
  rw [h]
  simp

theorem mapGet_append_self {l : List (String × String)} {k : String} (v : String)
    (h : mapGet l k = none) : mapGet (l ++ [(k, v)]) k = some v := by
  induction l with
  | nil => simp [mapGet]
  | cons p rest ih =>
      unfold mapGet at h
      split at h
      · exact absurd h (by simp)
      · rename_i hp
        calc mapGet ((p :: rest) ++ [(k, v)]) k
            = mapGet (p :: (rest ++ [(k, v)])) k := rfl
          _ = mapGet (rest ++ [(k, v)]) k := by
              show (if p.1 = k then some p.2 else mapGet (rest ++ [(k, v)]) k)
                  = mapGet (rest ++ [(k, v)]) k
              rw [if_neg hp]
          _ = some v := ih h

theorem removeFirstAssignment_sublist (l : List (String × String)) (u : String) :
    (removeFirstAssignment l u).1.Sublist l := by
  induction l with
  | nil => simp [removeFirstAssignment]
  | cons p rest ih =>
      unfold removeFirstAssignment
      split
      · exact (List.sublist_cons_self p rest)
      · exact ih.cons₂ p

/-! Field-effect lemmas for the state-changing primitives. -/

@[simp] theorem persist_config (s : PoolState) : (persist s).config = s.config := rfl

@[simp] theorem persist_warm (s : PoolState) :
    (persist s).warmContainers = s.warmContainers := rfl

@[simp] theorem persist_assignments (s : PoolState) :
    (persist s).assignments = s.assignments := rfl

@[simp] theorem persist_starting (s : PoolState) :
    (persist s).startingContainers = s.startingContainers := rfl

@[simp] theorem persist_knownMax (s : PoolState) :
    (persist s).knownMaxInstances = s.knownMaxInstances := rfl

@[simp] theorem persist_exhausted (s : PoolState) :
    (persist s).capacityExhausted = s.capacityExhausted := rfl

@[simp] theorem persist_storage_knownMax (s : PoolState) :
    (persist s).storage.knownMaxInstances = s.knownMaxInstances := rfl

@[simp] theorem totalCount_persist (s : PoolState) :
    totalCount (persist s) = totalCount s := rfl

@[simp] theorem recordCapacityLimit_warm (s : PoolState) :
    (recordCapacityLimit s).warmContainers = s.warmContainers := rfl

@[simp] theorem recordCapacityLimit_assignments (s : PoolState) :
    (recordCapacityLimit s).assignments = s.assignments := rfl

@[simp] theorem recordCapacityLimit_starting (s : PoolState) :
    (recordCapacityLimit s).startingContainers = s.startingContainers := rfl

@[simp] theorem recordCapacityLimit_knownMax (s : PoolState) :
    (recordCapacityLimit s).knownMaxInstances = some (totalCount s) := rfl

@[simp] theorem recordCapacityLimit_exhausted (s : PoolState) :
    (recordCapacityLimit s).capacityExhausted = true := rfl

@[simp] theorem recordCapacityLimit_storage_knownMax (s : PoolState) :
    (recordCapacityLimit s).storage.knownMaxInstances = some (totalCount s) := rfl

@[simp] theorem recordCapacityLimit_config (s : PoolState) :
    (recordCapacityLimit s).config = s.config := rfl

@[simp] theorem totalCount_recordCapacityLimit (s : PoolState) :
    totalCount (recordCapacityLimit s) = totalCount s := rfl

theorem setDelete_setAdd_nil (u : String) : setDelete (setAdd [] u) u = [] := by
  simp [setAdd, setDelete]

/-- On a successful start with no start already in flight, `startContainer`
returns the generated UUID and the state unchanged. -/
theorem startContainer_ok_eq (s : PoolState) (u : String)
    (h : s.startingContainers = []) :
    startContainer s (StartOutcome.ok u) = (some u, s) := by
  obtain ⟨cfg, w, a, st, km, ce, sto⟩ := s
  simp only at h
  subst h
  simp [startContainer, StartOutcome.uuid, setDelete_setAdd_nil]

/-- On a start that fails with the max_instances signal (no start already in
flight), `startContainer` returns `none` and records the capacity limit. -/
theorem startContainer_err_cap_eq (s : PoolState) (u msg : String)
    (h : s.startingContainers = []) (hm : isMaxInstancesError msg = true) :
    startContainer s (StartOutcome.err u msg) = (none, recordCapacityLimit s) := by
  obtain ⟨cfg, w, a, st, km, ce, sto⟩ := s
  simp only at h
  subst h
  simp [startContainer, StartOutcome.uuid, hm, recordCapacityLimit, totalCount,
    warmCount, assignedCount, setDelete_setAdd_nil]

/-- On a start that fails with any other error (no start already in flight),
`startContainer` returns `none` and leaves the state unchanged. -/
theorem startContainer_err_other_eq (s : PoolState) (u msg : String)
    (h : s.startingContainers = []) (hm : isMaxInstancesError msg = false) :
    startContainer s (StartOutcome.err u msg) = (none, s) := by
  obtain ⟨cfg, w, a, st, km, ce, sto⟩ := s
  simp only at h
  subst h
  simp [startContainer, StartOutcome.uuid, hm, setDelete_setAdd_nil]

@[simp] theorem startContainer_snd_warm (s : PoolState) (o : StartOutcome) :
    ((startContainer s o).2).warmContainers = s.warmContainers := by
  cases o <;> simp only [startContainer] <;> split <;> rfl

@[simp] theorem startContainer_snd_assignments (s : PoolState) (o : StartOutcome) :
    ((startContainer s o).2).assignments = s.assignments := by
  cases o <;> simp only [startContainer] <;> split <;> rfl

@[simp] theorem startContainer_snd_config (s : PoolState) (o : StartOutcome) :
    ((startContainer s o).2).config = s.config := by
  cases o <;> simp only [startContainer] <;> split <;> rfl

@[simp] theorem totalCount_startContainer (s : PoolState) (o : StartOutcome) :
    totalCount ((startContainer s o).2) = totalCount s := by
  unfold totalCount warmCount assignedCount
  rw [startContainer_snd_warm, startContainer_snd_assignments]

/-! The shrinking relation: the result of a pure removal step. -/

/-- `Shrinks t s`: `t` is `s` with some warm containers and assignment entries
removed; everything else (except storage) agrees. -/
def Shrinks (t s : PoolState) : Prop :=
  t.warmContainers.Sublist s.warmContainers ∧
  t.assignments.Sublist s.assignments ∧
  t.knownMaxInstances = s.knownMaxInstances ∧
  t.startingContainers = s.startingContainers ∧
  t.capacityExhausted = s.capacityExhausted ∧
  t.config = s.config

theorem shrinks_refl (s : PoolState) : Shrinks s s :=
  ⟨List.Sublist.refl _, List.Sublist.refl _, rfl, rfl, rfl, rfl⟩

theorem shrinks_trans {r t s : PoolState} (h1 : Shrinks r t) (h2 : Shrinks t s) :
    Shrinks r s :=
  ⟨h1.1.trans h2.1, h1.2.1.trans h2.2.1, h1.2.2.1.trans h2.2.2.1,
   h1.2.2.2.1.trans h2.2.2.2.1, h1.2.2.2.2.1.trans h2.2.2.2.2.1,
   h1.2.2.2.2.2.trans h2.2.2.2.2.2⟩

theorem removeContainer_shrinks (s : PoolState) (u : String) :
    Shrinks (removeContainer s u).1 s :=
  ⟨setDelete_sublist _ _, removeFirstAssignment_sublist _ _, rfl, rfl, rfl, rfl⟩

theorem shrinks_persist {t s : PoolState} (h : Shrinks t s) : Shrinks (persist t) s :=
  h

theorem shrinks_mapInv {t s : PoolState} (h : Shrinks t s) (hi : MapInv s) :
    MapInv t := by
  obtain ⟨hw, ha, hk, hst, hce, hcf⟩ := h
  obtain ⟨i1, i2, i3, i4, i5⟩ := hi
  refine ⟨(ha.map Prod.fst).nodup i1, (ha.map Prod.snd).nodup i2, hw.nodup i3, ?_, ?_⟩
  · intro u hu hmem
    exact i4 u (hw.subset hu) ((ha.map Prod.snd).subset hmem)
  · rw [hst]
    exact i5

theorem shrinks_capInv {t s : PoolState} (h : Shrinks t s) (hi : CapInv s) :
    CapInv t := by
  intro m hm
  rw [h.2.2.1] at hm
  have := hi m hm
  have hwl := h.1.length_le
  have hal := h.2.1.length_le
  unfold totalCount warmCount assignedCount at *
  omega

theorem shrinks_tracked {t s : PoolState} (h : Shrinks t s) :
    ∀ u, u ∈ trackedIds t → u ∈ trackedIds s := by
  intro u hu
  unfold trackedIds assignedValues at *
  rcases List.mem_append.mp hu with hu | hu
  · exact List.mem_append.mpr (Or.inl (h.1.subset hu))
  · exact List.mem_append.mpr (Or.inr ((h.2.1.map Prod.snd).subset hu))

theorem nodup_append_single {l : List String} {x : String} (h : l.Nodup)
    (hx : x ∉ l) : (l ++ [x]).Nodup := by
  refine List.Nodup.append h (List.nodup_singleton x) ?_
  intro a ha hb
  simp only [List.mem_singleton] at hb
  subst hb
  exact hx ha

theorem mapGet_replace {l : List (String × String)} {k v x : String}
    (h : mapGet l k = some x) :
    mapGet (l.map (fun p => if p.1 = k then (k, v) else p)) k = some v := by
  induction l with
  | nil => simp [mapGet] at h
  | cons p rest ih =>
      by_cases hp : p.1 = k
      · simp only [List.map_cons, if_pos hp]
        show (if (k, v).1 = k then some (k, v).2 else _) = some v
        simp
      · unfold mapGet at h
        rw [if_neg hp] at h
        simp only [List.map_cons, if_neg hp]
        show (if p.1 = k then some p.2 else
          mapGet (rest.map (fun p => if p.1 = k then (k, v) else p)) k) = some v
        rw [if_neg hp]
        exact ih h

theorem mapGet_mapSet_self (l : List (String × String)) (k v : String) :
    mapGet (mapSet l k v) k = some v := by
  unfold mapSet
  split
  · rename_i hs
    obtain ⟨x, hx⟩ := Option.isSome_iff_exists.mp hs
    exact mapGet_replace hx
  · rename_i hs
    have hn : mapGet l k = none := Option.not_isSome_iff_eq_none.mp hs
    exact mapGet_append_self v hn

theorem startContainer_ok_fst (s : PoolState) (u : String) :
    (startContainer s (StartOutcome.ok u)).1 = some u := rfl

theorem startContainer_err_fst (s : PoolState) (u msg : String) :
    (startContainer s (StartOutcome.err u msg)).1 = none := by
  simp only [startContainer]

/-! Branch equations for the two stages of getContainer. -/

theorem afterLookup_pop {t : PoolState} (userID : String) (o : StartOutcome)
    {cu : String} {rest : List String} (hw : t.warmContainers = cu :: rest) :
    getContainerAfterLookup t userID o =
      (Except.ok cu,
       persist { t with
          warmContainers := rest,
          assignments := mapSet t.assignments userID cu }, 0) := by
  unfold getContainerAfterLookup
  rw [hw]

theorem afterLookup_depleted {t : PoolState} (userID : String) (o : StartOutcome)
    (hw : t.warmContainers = []) (hdep : capacityDepleted t = true) :
    getContainerAfterLookup t userID o =
      (Except.error (GetError.capacityExceeded (totalCount t) t.knownMaxInstances),
       t, 0) := by
  unfold getContainerAfterLookup
  rw [hw]
  simp [hdep]

theorem afterLookup_start_ok {t t1 : PoolState} (userID : String)
    {o : StartOutcome} {u : String} (hw : t.warmContainers = [])
    (hdep : capacityDepleted t = false) (hst : startContainer t o = (some u, t1)) :
    getContainerAfterLookup t userID o =
      (Except.ok u,
       persist { t1 with assignments := mapSet t1.assignments userID u }, 1) := by
  unfold getContainerAfterLookup
  rw [hw]
  simp [hdep, hst]

theorem afterLookup_start_none_exhausted {t t1 : PoolState} (userID : String)
    {o : StartOutcome} (hw : t.warmContainers = [])
    (hdep : capacityDepleted t = false) (hst : startContainer t o = (none, t1))
    (hex : t1.capacityExhausted = true) :
    getContainerAfterLookup t userID o =
      (Except.error (GetError.capacityExceeded (totalCount t1) t1.knownMaxInstances),
       t1, 1) := by
  unfold getContainerAfterLookup
  rw [hw]
  simp [hdep, hst, hex]

theorem afterLookup_start_none_other {t t1 : PoolState} (userID : String)
    {o : StartOutcome} (hw : t.warmContainers = [])
    (hdep : capacityDepleted t = false) (hst : startContainer t o = (none, t1))
    (hex : t1.capacityExhausted = false) :
    getContainerAfterLookup t userID o =
      (Except.error GetError.startFailed, t1, 1) := by
  unfold getContainerAfterLookup
  rw [hw]
  simp [hdep, hst, hex]

theorem getContainer_no_entry {s : PoolState} (userID : String)
    (q : String → Option ContainerStatus) (o : StartOutcome)
    (h : mapGet s.assignments userID = none) :
    getContainer s userID q o = getContainerAfterLookup s userID o := by
  unfold getContainer
  rw [h]

theorem getContainer_live {s : PoolState} {userID existing : String}
    {q : String → Option ContainerStatus} (o : StartOutcome)
    (h : mapGet s.assignments userID = some existing)
    (hr : isContainerRunning s existing q = true) :
    getContainer s userID q o = (Except.ok existing, s, 0) := by
  unfold getContainer
  rw [h]
  simp [hr]

theorem getContainer_stale {s : PoolState} {userID existing : String}
    {q : String → Option ContainerStatus} (o : StartOutcome)
    (h : mapGet s.assignments userID = some existing)
    (hr : isContainerRunning s existing q = false) :
    getContainer s userID q o =
      getContainerAfterLookup
        (persist { s with assignments := mapDelete s.assignments userID })
        userID o := by
  unfold getContainer
  rw [h]
  simp [hr]

theorem not_depleted_lt {t : PoolState} {m : Nat}
    (hdep : capacityDepleted t = false) (hm : t.knownMaxInstances = some m) :
    totalCount t < m := by
  unfold capacityDepleted remainingCapacity at hdep
  rw [hm] at hdep
  simp only [decide_eq_false_iff_not] at hdep
  omega

/-! Invariant preservation through getContainer. -/

/-- The second stage of `getContainer` preserves both invariants when entered
with no assignment entry for the identity (as the first stage guarantees). -/
theorem getContainerAfterLookup_inv (t : PoolState) (userID : String)
    (o : StartOutcome) (hmap : MapInv t) (hcap : CapInv t)
    (habs : mapGet t.assignments userID = none) (hfresh : FreshOutcome t o) :
    MapInv (getContainerAfterLookup t userID o).2.1 ∧
    CapInv (getContainerAfterLookup t userID o).2.1 := by
  obtain ⟨i1, i2, i3, i4, i5⟩ := hmap
  cases hw : t.warmContainers with
  | cons cu rest =>
      rw [afterLookup_pop userID o hw]
      have hset := mapSet_of_none cu habs
      have hcu : cu ∈ t.warmContainers := by
        rw [hw]
        exact List.mem_cons_self _ _
      have hnodupw := i3
      rw [hw] at hnodupw
      constructor
      · refine ⟨?_, ?_, ?_, ?_, ?_⟩
        · show ((mapSet t.assignments userID cu).map Prod.fst).Nodup
          rw [hset, List.map_append]
          have hx : List.map Prod.fst [(userID, cu)] = [userID] := rfl
          rw [hx]
          exact nodup_append_single i1 (mapGet_eq_none_iff.mp habs)
        · show ((mapSet t.assignments userID cu).map Prod.snd).Nodup
          rw [hset, List.map_append]
          have hx : List.map Prod.snd [(userID, cu)] = [cu] := rfl
          rw [hx]
          exact nodup_append_single i2 (i4 cu hcu)
        · show rest.Nodup
          exact (List.nodup_cons.mp hnodupw).2
        · intro u hu
          have hu' : u ∈ rest := hu
          have hmem : u ∈ t.warmContainers := by
            rw [hw]
            exact List.mem_cons_of_mem _ hu'
          have hne : u ≠ cu := by
            intro hEq
            subst hEq
            exact (List.nodup_cons.mp hnodupw).1 hu'
          show u ∉ assignedValues (mapSet t.assignments userID cu)
          rw [hset]
          unfold assignedValues
          rw [List.map_append]
          intro hc
          rcases List.mem_append.mp hc with hc | hc
          · exact i4 u hmem hc
          · have : u = cu := by simpa using hc
            exact hne this
        · show t.startingContainers = []
          exact i5
      · intro m hm
        have hle := hcap m hm
        show rest.length + (mapSet t.assignments userID cu).length ≤ m
        rw [hset]
        unfold totalCount warmCount assignedCount at hle
        rw [hw] at hle
        simp only [List.length_cons, List.length_append, List.length_nil] at hle ⊢
        omega
  | nil =>
      cases hdep : capacityDepleted t with
      | true =>
          rw [afterLookup_depleted userID o hw hdep]
          exact ⟨⟨i1, i2, i3, i4, i5⟩, hcap⟩
      | false =>
          cases o with
          | ok u =>
              have hst := startContainer_ok_eq t u i5
              rw [afterLookup_start_ok userID hw hdep hst]
              have hset := mapSet_of_none u habs
              have hufresh : u ∉ assignedValues t.assignments := by
                intro hmem
                exact hfresh (List.mem_append.mpr (Or.inr hmem))
              constructor
              · refine ⟨?_, ?_, ?_, ?_, ?_⟩
                · show ((mapSet t.assignments userID u).map Prod.fst).Nodup
                  rw [hset, List.map_append]
                  have hx : List.map Prod.fst [(userID, u)] = [userID] := rfl
                  rw [hx]
                  exact nodup_append_single i1 (mapGet_eq_none_iff.mp habs)
                · show ((mapSet t.assignments userID u).map Prod.snd).Nodup
                  rw [hset, List.map_append]
                  have hx : List.map Prod.snd [(userID, u)] = [u] := rfl
                  rw [hx]
                  exact nodup_append_single i2 hufresh
                · show t.warmContainers.Nodup
                  exact i3
                · intro w hwm
                  have : w ∈ t.warmContainers := hwm
                  rw [hw] at this
                  cases this
                · show t.startingContainers = []
                  exact i5
              · intro m hm
                have hlt := not_depleted_lt hdep hm
                show t.warmContainers.length + (mapSet t.assignments userID u).length ≤ m
                rw [hset]
                unfold totalCount warmCount assignedCount at hlt
                simp only [List.length_append, List.length_cons, List.length_nil] at hlt ⊢
                omega
          | err u msg =>
              by_cases hmax : isMaxInstancesError msg = true
              · have hst := startContainer_err_cap_eq t u msg i5 hmax
                have hex : (recordCapacityLimit t).capacityExhausted = true := rfl
                rw [afterLookup_start_none_exhausted userID hw hdep hst hex]
                refine ⟨⟨i1, i2, i3, i4, i5⟩, ?_⟩
                intro m hm
                have hinj : some (totalCount t) = some m := hm
                have : totalCount t = m := Option.some.inj hinj
                show totalCount t ≤ m
                omega
              · have hmax' : isMaxInstancesError msg = false := by
                  simpa using hmax
                have hst := startContainer_err_other_eq t u msg i5 hmax'
                cases hex : t.capacityExhausted with
                | true =>
                    rw [afterLookup_start_none_exhausted userID hw hdep hst hex]
                    exact ⟨⟨i1, i2, i3, i4, i5⟩, hcap⟩
                | false =>
                    rw [afterLookup_start_none_other userID hw hdep hst hex]
                    exact ⟨⟨i1, i2, i3, i4, i5⟩, hcap⟩

/-- getContainer preserves both invariants. -/
theorem getContainer_inv (s : PoolState) (userID : String)
    (q : String → Option ContainerStatus) (o : StartOutcome)
    (hmap : MapInv s) (hcap : CapInv s) (hfresh : FreshOutcome s o) :
    MapInv (getContainer s userID q o).2.1 ∧
    CapInv (getContainer s userID q o).2.1 := by
  cases hg : mapGet s.assignments userID with
  | none =>
      rw [getContainer_no_entry userID q o hg]
      exact getContainerAfterLookup_inv s userID o hmap hcap hg hfresh
  | some existing =>
      cases hr : isContainerRunning s existing q with
      | true =>
          rw [getContainer_live o hg hr]
          exact ⟨hmap, hcap⟩
      | false =>
          rw [getContainer_stale o hg hr]
          have hshr : Shrinks
              (persist { s with assignments := mapDelete s.assignments userID }) s :=
            ⟨List.Sublist.refl _, mapDelete_sublist _ _, rfl, rfl, rfl, rfl⟩
          refine getContainerAfterLookup_inv _ userID o
            (shrinks_mapInv hshr hmap) (shrinks_capInv hshr hcap) ?_ ?_
          · show mapGet (mapDelete s.assignments userID) userID = none
            exact mapGet_mapDelete_self _ _
          · intro hmem
            exact hfresh (shrinks_tracked hshr _ hmem)

/-! The scale-up loop of adjustPool. -/

theorem setAdd_length_of_not_mem {l : List String} {x : String} (h : x ∉ l) :
    (setAdd l x).length = l.length + 1 := by
  unfold setAdd
  rw [if_neg h]
  simp

theorem startLoop_exhausted (out : Nat → StartOutcome) (n : Nat) (s : PoolState)
    (k : Nat) (h : s.capacityExhausted = true) : startLoop out n s k = (s, k) := by
  cases n with
  | zero => rfl
  | succ n => simp only [startLoop, h, if_pos]

theorem startLoop_count_ge (out : Nat → StartOutcome) :
    ∀ (n : Nat) (s : PoolState) (k : Nat), k ≤ (startLoop out n s k).2 := by
  intro n
  induction n with
  | zero => intro s k; exact le_refl _
  | succ n ih =>
      intro s k
      simp only [startLoop]
      split
      · exact le_refl _
      · split
        · exact le_trans (Nat.le_succ k) (ih _ _)
        · exact le_trans (Nat.le_succ k) (ih _ _)

theorem startLoop_count_le (out : Nat → StartOutcome) :
    ∀ (n : Nat) (s : PoolState) (k : Nat), (startLoop out n s k).2 ≤ k + n := by
  intro n
  induction n with
  | zero => intro s k; exact Nat.le_add_right _ _
  | succ n ih =>
      intro s k
      simp only [startLoop]
      split
      · omega
      · split
        · exact le_trans (ih _ _) (by omega)
        · exact le_trans (ih _ _) (by omega)

theorem startLoop_warm_mono (out : Nat → StartOutcome) :
    ∀ (n : Nat) (s : PoolState) (k : Nat) (u : String),
      u ∈ s.warmContainers → u ∈ (startLoop out n s k).1.warmContainers := by
  intro n
  induction n with
  | zero => intro s k u hu; exact hu
  | succ n ih =>
      intro s k u hu
      simp only [startLoop]
      split
      · exact hu
      · cases hsc : startContainer s (out k) with
        | mk res s1 =>
            have hwarm : s1.warmContainers = s.warmContainers := by
              have := startContainer_snd_warm s (out k)
              rw [hsc] at this
              exact this
            cases res with
            | none =>
                show u ∈ (startLoop out n s1 (k + 1)).1.warmContainers
                exact ih _ _ u (by rw [hwarm]; exact hu)
            | some uuid =>
                show u ∈ (startLoop out n
                  { s1 with warmContainers := setAdd s1.warmContainers uuid }
                  (k + 1)).1.warmContainers
                refine ih _ _ u ?_
                show u ∈ setAdd s1.warmContainers uuid
                exact mem_setAdd.mpr (Or.inl (by rw [hwarm]; exact hu))

/-- MapInv and CapInv are preserved by the scale-up loop, given fresh distinct
UUIDs and room for `n` more instances under any known ceiling. -/
theorem startLoop_inv (out : Nat → StartOutcome)
    (hdist : ∀ j k, j ≠ k → (out j).uuid ≠ (out k).uuid) :
    ∀ (n : Nat) (s : PoolState) (k : Nat), MapInv s →
      (∀ j, k ≤ j → (out j).uuid ∉ trackedIds s) →
      (∀ m, s.knownMaxInstances = some m → totalCount s + n ≤ m) →
      MapInv (startLoop out n s k).1 ∧ CapInv (startLoop out n s k).1 := by
  intro n
  induction n with
  | zero =>
      intro s k hmap hfresh hroom
      constructor
      · exact hmap
      · intro m hm
        have hm' : s.knownMaxInstances = some m := hm
        have := hroom m hm'
        show totalCount s ≤ m
        omega
  | succ n ih =>
      intro s k hmap hfresh hroom
      obtain ⟨i1, i2, i3, i4, i5⟩ := hmap
      cases hex : s.capacityExhausted with
      | true =>
          rw [startLoop_exhausted out (n + 1) s k hex]
          constructor
          · exact ⟨i1, i2, i3, i4, i5⟩
          · intro m hm
            have hm' : s.knownMaxInstances = some m := hm
            have := hroom m hm'
            show totalCount s ≤ m
            omega
      | false =>
          have hne : ¬s.capacityExhausted = true := by simp [hex]
          simp only [startLoop]
          rw [if_neg hne]
          cases hout : out k with
          | ok u =>
              have hst := startContainer_ok_eq s u i5
              rw [hst]
              show MapInv (startLoop out n
                  { s with warmContainers := setAdd s.warmContainers u } (k + 1)).1 ∧
                CapInv (startLoop out n
                  { s with warmContainers := setAdd s.warmContainers u } (k + 1)).1
              have huuid : (out k).uuid = u := by rw [hout]; rfl
              have hufresh : u ∉ trackedIds s := by
                rw [← huuid]
                exact hfresh k (le_refl k)
              have huwarm : u ∉ s.warmContainers := fun hm =>
                hufresh (List.mem_append.mpr (Or.inl hm))
              have huval : u ∉ assignedValues s.assignments := fun hm =>
                hufresh (List.mem_append.mpr (Or.inr hm))
              refine ih { s with warmContainers := setAdd s.warmContainers u }
                (k + 1) ⟨i1, i2, ?_, ?_, i5⟩ ?_ ?_
              · exact setAdd_nodup i3
              · intro w hw
                rcases mem_setAdd.mp hw with hw | hw
                · exact i4 w hw
                · subst hw
                  exact huval
              · intro j hj hmem
                unfold trackedIds at hmem
                rcases List.mem_append.mp hmem with hmem | hmem
                · rcases mem_setAdd.mp hmem with hmem | hmem
                  · exact hfresh j (by omega)
                      (List.mem_append.mpr (Or.inl hmem))
                  · have hjk : j ≠ k := by omega
                    exact hdist j k hjk (by rw [huuid]; exact hmem)
                · exact hfresh j (by omega) (List.mem_append.mpr (Or.inr hmem))
              · intro m hm
                have := hroom m hm
                unfold totalCount warmCount assignedCount at this ⊢
                simp only [setAdd_length_of_not_mem huwarm]
                omega
          | err u msg =>
              by_cases hmax : isMaxInstancesError msg = true
              · have hst := startContainer_err_cap_eq s u msg i5 hmax
                rw [hst]
                show MapInv (startLoop out n (recordCapacityLimit s) (k + 1)).1 ∧
                  CapInv (startLoop out n (recordCapacityLimit s) (k + 1)).1
                rw [startLoop_exhausted out n (recordCapacityLimit s) (k + 1) rfl]
                refine ⟨⟨i1, i2, i3, i4, i5⟩, ?_⟩
                intro m hm
                have hm' : some (totalCount s) = some m := hm
                have : totalCount s = m := Option.some.inj hm'
                show totalCount s ≤ m
                omega
              · have hmax' : isMaxInstancesError msg = false := by simpa using hmax
                have hst := startContainer_err_other_eq s u msg i5 hmax'
                rw [hst]
                show MapInv (startLoop out n s (k + 1)).1 ∧
                  CapInv (startLoop out n s (k + 1)).1
                refine ih s (k + 1) ⟨i1, i2, i3, i4, i5⟩ ?_ ?_
                · intro j hj
                  exact hfresh j (by omega)
                · intro m hm
                  have := hroom m hm
                  omega

@[simp] theorem minWithCapacity_none (d : Nat) : minWithCapacity d none = d := rfl

@[simp] theorem minWithCapacity_some (d c : Nat) :
    minWithCapacity d (some c) = min d c := rfl

theorem remainingCapacity_some {s : PoolState} {m : Nat}
    (hm : s.knownMaxInstances = some m) :
    remainingCapacity s = some (m - totalCount s) := by
  unfold remainingCapacity
  rw [hm]

theorem remainingCapacity_none {s : PoolState}
    (hm : s.knownMaxInstances = none) : remainingCapacity s = none := by
  unfold remainingCapacity
  rw [hm]

/-- MapInv and CapInv are preserved by the post-probe scale-up stage. -/
theorem scaleUpLoop_inv (out : Nat → StartOutcome)
    (hdist : ∀ j k, j ≠ k → (out j).uuid ≠ (out k).uuid)
    (s : PoolState) (diff k : Nat) (hmap : MapInv s) (hcap : CapInv s)
    (hfresh : ∀ j, k ≤ j → (out j).uuid ∉ trackedIds s) :
    MapInv (scaleUpLoop out s diff k).1 ∧ CapInv (scaleUpLoop out s diff k).1 := by
  unfold scaleUpLoop
  dsimp only
  split
  · exact ⟨hmap, hcap⟩
  · have hroom : ∀ m, s.knownMaxInstances = some m →
        totalCount s + minWithCapacity diff (remainingCapacity s) ≤ m := by
      intro m hm
      have h1 := hcap m hm
      rw [remainingCapacity_some hm, minWithCapacity_some]
      omega
    have h := startLoop_inv out hdist (minWithCapacity diff (remainingCapacity s))
      s k hmap hfresh hroom
    exact ⟨h.1, h.2⟩

/-! Probe equations. -/

theorem probeStep_ok (s : PoolState) (u : String)
    (h : s.startingContainers = []) :
    probeStep s (StartOutcome.ok u) =
      (persist { s with
          knownMaxInstances := none,
          warmContainers := setAdd s.warmContainers u }, some u) := by
  unfold probeStep
  rw [startContainer_ok_eq s u h]

theorem probeStep_err (s : PoolState) (u msg : String) :
    probeStep s (StartOutcome.err u msg)
      = (persist (startContainer s (StartOutcome.err u msg)).2, none) := by
  unfold probeStep
  cases hsc : startContainer s (StartOutcome.err u msg) with
  | mk res s1 =>
      have hres : res = none := by
        have := startContainer_err_fst s u msg
        rw [hsc] at this
        exact this
      subst hres
      rfl

/-! Branch equations for adjustPool. -/

theorem adjustPool_probe_ok {s : PoolState} (out : Nat → StartOutcome)
    (stopOk : String → Bool) {u : String}
    (hw : warmCount s < s.config.warmTarget)
    (hcond : remainingCapacity s = some 0 ∧ s.knownMaxInstances ≠ none)
    (hout : out 0 = StartOutcome.ok u) (hst : s.startingContainers = []) :
    adjustPool s out stopOk =
      scaleUpLoop out
        (persist { s with
            knownMaxInstances := none,
            warmContainers := setAdd s.warmContainers u })
        (s.config.warmTarget - warmCount s - 1) 1 := by
  unfold adjustPool
  dsimp only
  rw [if_pos hw, if_pos hcond, hout, probeStep_ok s u hst]

theorem adjustPool_probe_fail {s : PoolState} (out : Nat → StartOutcome)
    (stopOk : String → Bool) {u msg : String}
    (hw : warmCount s < s.config.warmTarget)
    (hcond : remainingCapacity s = some 0 ∧ s.knownMaxInstances ≠ none)
    (hout : out 0 = StartOutcome.err u msg) :
    adjustPool s out stopOk =
      (persist (startContainer s (StartOutcome.err u msg)).2, 1) := by
  unfold adjustPool
  dsimp only
  rw [if_pos hw, if_pos hcond, hout, probeStep_err]

theorem adjustPool_no_probe {s : PoolState} (out : Nat → StartOutcome)
    (stopOk : String → Bool) (hw : warmCount s < s.config.warmTarget)
    (hcond : ¬(remainingCapacity s = some 0 ∧ s.knownMaxInstances ≠ none)) :
    adjustPool s out stopOk =
      scaleUpLoop out s (s.config.warmTarget - warmCount s) 0 := by
  unfold adjustPool
  dsimp only
  rw [if_pos hw, if_neg hcond]

/-! Folds that only remove warm containers. -/

theorem foldl_shrinks {α : Type} (f : PoolState → α → PoolState)
    (hf : ∀ st a, Shrinks (f st a) st) :
    ∀ (l : List α) (s : PoolState), Shrinks (l.foldl f s) s := by
  intro l
  induction l with
  | nil => intro s; exact shrinks_refl _
  | cons a rest ih =>
      intro s
      show Shrinks (rest.foldl f (f s a)) s
      exact shrinks_trans (ih (f s a)) (hf s a)

theorem warmDelete_step_shrinks (st : PoolState) (u : String) :
    Shrinks { st with warmContainers := setDelete st.warmContainers u } st :=
  ⟨setDelete_sublist _ _, List.Sublist.refl _, rfl, rfl, rfl, rfl⟩

theorem healthStep_shrinks (q : String → Option ContainerStatus)
    (acc : PoolState × Bool) (u : String) :
    Shrinks (healthStep q acc u).1 acc.1 := by
  unfold healthStep
  split
  · exact shrinks_refl _
  · exact removeContainer_shrinks _ _

theorem foldl_healthStep_shrinks (q : String → Option ContainerStatus) :
    ∀ (l : List String) (acc : PoolState × Bool),
      Shrinks ((l.foldl (healthStep q) acc).1) acc.1 := by
  intro l
  induction l with
  | nil => intro acc; exact shrinks_refl _
  | cons u rest ih =>
      intro acc
      show Shrinks ((rest.foldl (healthStep q) (healthStep q acc u)).1) acc.1
      exact shrinks_trans (ih _) (healthStep_shrinks q acc u)

theorem checkContainerHealth_shrinks (s : PoolState)
    (q : String → Option ContainerStatus) :
    Shrinks (checkContainerHealth s q) s := by
  unfold checkContainerHealth
  dsimp only
  split
  · exact shrinks_persist (foldl_healthStep_shrinks q _ _)
  · exact foldl_healthStep_shrinks q _ _

/-- MapInv and CapInv are preserved by adjustPool. -/
theorem adjustPool_inv (s : PoolState) (out : Nat → StartOutcome)
    (stopOk : String → Bool) (hmap : MapInv s) (hcap : CapInv s)
    (hfresh : ∀ k, (out k).uuid ∉ trackedIds s)
    (hdist : ∀ j k, j ≠ k → (out j).uuid ≠ (out k).uuid) :
    MapInv (adjustPool s out stopOk).1 ∧ CapInv (adjustPool s out stopOk).1 := by
  obtain ⟨i1, i2, i3, i4, i5⟩ := hmap
  by_cases hw : warmCount s < s.config.warmTarget
  · by_cases hcond : remainingCapacity s = some 0 ∧ s.knownMaxInstances ≠ none
    · cases hout : out 0 with
      | ok u =>
          rw [adjustPool_probe_ok out stopOk hw hcond hout i5]
          have huuid : (out 0).uuid = u := by rw [hout]; rfl
          have hufresh : u ∉ trackedIds s := by
            rw [← huuid]
            exact hfresh 0
          have huwarm : u ∉ s.warmContainers := fun hm =>
            hufresh (List.mem_append.mpr (Or.inl hm))
          have huval : u ∉ assignedValues s.assignments := fun hm =>
            hufresh (List.mem_append.mpr (Or.inr hm))
          refine scaleUpLoop_inv out hdist _ _ 1 ⟨i1, i2, ?_, ?_, i5⟩ ?_ ?_
          · exact setAdd_nodup i3
          · intro w hwm
            rcases mem_setAdd.mp hwm with hwm | hwm
            · exact i4 w hwm
            · subst hwm
              exact huval
          · intro m hm
            have hm' : (none : Option Nat) = some m := hm
            cases hm'
          · intro j hj hmem
            unfold trackedIds at hmem
            rcases List.mem_append.mp hmem with hmem | hmem
            · rcases mem_setAdd.mp hmem with hmem | hmem
              · exact hfresh j (List.mem_append.mpr (Or.inl hmem))
              · have hj0 : j ≠ 0 := by omega
                exact hdist j 0 hj0 (by rw [huuid]; exact hmem)
            · exact hfresh j (List.mem_append.mpr (Or.inr hmem))
      | err u msg =>
          rw [adjustPool_probe_fail out stopOk hw hcond hout]
          by_cases hmax : isMaxInstancesError msg = true
          · rw [startContainer_err_cap_eq s u msg i5 hmax]
            refine ⟨⟨i1, i2, i3, i4, i5⟩, ?_⟩
            intro m hm
            have hm' : some (totalCount s) = some m := hm
            have : totalCount s = m := Option.some.inj hm'
            show totalCount s ≤ m
            omega
          · have hmax' : isMaxInstancesError msg = false := by simpa using hmax
            rw [startContainer_err_other_eq s u msg i5 hmax']
            exact ⟨⟨i1, i2, i3, i4, i5⟩, fun m hm => hcap m hm⟩
    · rw [adjustPool_no_probe out stopOk hw hcond]
      exact scaleUpLoop_inv out hdist s _ 0 ⟨i1, i2, i3, i4, i5⟩ hcap
        (fun j _ => hfresh j)
  · unfold adjustPool
    dsimp only
    rw [if_neg hw]
    split
    · have hshr := foldl_shrinks _ warmDelete_step_shrinks
        ((s.warmContainers.take (warmCount s - s.config.warmTarget)).filter stopOk) s
      exact ⟨shrinks_mapInv hshr ⟨i1, i2, i3, i4, i5⟩, shrinks_capInv hshr hcap⟩
    · exact ⟨⟨i1, i2, i3, i4, i5⟩, hcap⟩

/-! Invariant preservation of the remaining operations, and the reachability
invariant. -/

theorem reportStopped_inv (s : PoolState) (uuid : String)
    (hmap : MapInv s) (hcap : CapInv s) :
    MapInv (reportStopped s uuid) ∧ CapInv (reportStopped s uuid) := by
  have hshr := shrinks_persist (removeContainer_shrinks s uuid)
  exact ⟨shrinks_mapInv hshr hmap, shrinks_capInv hshr hcap⟩

theorem shutdownPrewarmed_inv (s : PoolState) (stopOk : String → Bool)
    (hmap : MapInv s) (hcap : CapInv s) :
    MapInv (shutdownPrewarmed s stopOk) ∧ CapInv (shutdownPrewarmed s stopOk) := by
  have hstep : ∀ (st : PoolState) (u : String),
      Shrinks (if stopOk u then
        { st with warmContainers := setDelete st.warmContainers u } else st) st := by
    intro st u
    split
    · exact warmDelete_step_shrinks st u
    · exact shrinks_refl st
  have hshr := shrinks_persist (foldl_shrinks _ hstep s.warmContainers s)
  exact ⟨shrinks_mapInv hshr hmap, shrinks_capInv hshr hcap⟩

theorem initialState_inv : MapInv initialState ∧ CapInv initialState := by
  constructor
  · refine ⟨?_, ?_, ?_, ?_, rfl⟩ <;> simp [initialState]
  · intro m hm
    simp [initialState] at hm

theorem alarmRun_inv (s : PoolState) (now : Nat)
    (q : String → Option ContainerStatus) (out : Nat → StartOutcome)
    (stopOk : String → Bool) (hmap : MapInv s) (hcap : CapInv s)
    (hfr : FreshOutcomes s out) :
    MapInv (alarmRun s now q out stopOk) ∧ CapInv (alarmRun s now q out stopOk) := by
  unfold alarmRun alarm alarmBody keepWarmContainersAlive
  dsimp only
  have hmap0 : MapInv { s with capacityExhausted := false } := hmap
  have hcap0 : CapInv { s with capacityExhausted := false } := hcap
  have hshr := checkContainerHealth_shrinks { s with capacityExhausted := false } q
  have hfresh1 : ∀ k, (out k).uuid ∉
      trackedIds (checkContainerHealth { s with capacityExhausted := false } q) := by
    intro k hmem
    exact hfr.1 k (shrinks_tracked hshr _ hmem)
  have h := adjustPool_inv (checkContainerHealth { s with capacityExhausted := false } q)
    out stopOk (shrinks_mapInv hshr hmap0) (shrinks_capInv hshr hcap0) hfresh1 hfr.2
  exact ⟨h.1, h.2⟩

/-- Every reachable state satisfies both structural invariants. -/
theorem reachable_inv {s : PoolState} (h : Reachable s) : MapInv s ∧ CapInv s := by
  induction h with
  | init => exact initialState_inv
  | getContainer s userID q o hr hf ih =>
      exact getContainer_inv s userID q o ih.1 ih.2 hf
  | reportStopped s uuid hr ih => exact reportStopped_inv s uuid ih.1 ih.2
  | shutdownPrewarmed s stopOk hr ih =>
      exact shutdownPrewarmed_inv s stopOk ih.1 ih.2
  | configure s c hr ih => exact ⟨ih.1, ih.2⟩
  | alarmRun s now q out stopOk hr hfr ih =>
      exact alarmRun_inv s now q out stopOk ih.1 ih.2 hfr

/-! Counting and monotonicity facts about the scale-up stage. -/

theorem scaleUpLoop_count_ge (out : Nat → StartOutcome) (s : PoolState)
    (diff k : Nat) : k ≤ (scaleUpLoop out s diff k).2 := by
  unfold scaleUpLoop
  dsimp only
  split
  · exact le_refl _
  · exact startLoop_count_ge out _ s k

theorem scaleUpLoop_count_le (out : Nat → StartOutcome) (s : PoolState)
    (diff k : Nat) :
    (scaleUpLoop out s diff k).2 ≤ k + minWithCapacity diff (remainingCapacity s) := by
  unfold scaleUpLoop
  dsimp only
  split
  · exact Nat.le_add_right _ _
  · exact startLoop_count_le out _ s k

theorem scaleUpLoop_warm_mono (out : Nat → StartOutcome) (s : PoolState)
    (diff k : Nat) (u : String) (hu : u ∈ s.warmContainers) :
    u ∈ (scaleUpLoop out s diff k).1.warmContainers := by
  unfold scaleUpLoop
  dsimp only
  split
  · exact hu
  · show u ∈ (persist (startLoop out
      (minWithCapacity diff (remainingCapacity s)) s k).1).warmContainers
    rw [persist_warm]
    exact startLoop_warm_mono out _ s k u hu

/-! Liveness classification. -/

theorem isRunning_false_of_throw {s : PoolState} {u : String}
    {q : String → Option ContainerStatus} (hst : u ∉ s.startingContainers)
    (hq : q u = none) : isContainerRunning s u q = false := by
  unfold isContainerRunning
  rw [if_neg hst, hq]

theorem isRunning_true_of_running {s : PoolState} {u : String}
    {q : String → Option ContainerStatus}
    (hq : q u = some ContainerStatus.running) :
    isContainerRunning s u q = true := by
  unfold isContainerRunning
  split
  · rfl
  · rw [hq]
    simp

/-! The sticky-mapping postcondition of getContainer. -/

theorem afterLookup_ok_mapGet {t : PoolState} {userID : String}
    {o : StartOutcome} {uuid : String}
    (h : (getContainerAfterLookup t userID o).1 = Except.ok uuid) :
    mapGet ((getContainerAfterLookup t userID o).2.1).assignments userID
      = some uuid := by
  cases hw : t.warmContainers with
  | cons cu rest =>
      rw [afterLookup_pop userID o hw] at h ⊢
      have : cu = uuid := Except.ok.inj h
      subst this
      show mapGet (mapSet t.assignments userID cu) userID = some cu
      exact mapGet_mapSet_self _ _ _
  | nil =>
      cases hdep : capacityDepleted t with
      | true =>
          rw [afterLookup_depleted userID o hw hdep] at h
          simp at h
      | false =>
          cases hsc : startContainer t o with
          | mk res s1 =>
              cases res with
              | some w =>
                  rw [afterLookup_start_ok userID hw hdep hsc] at h ⊢
                  have : w = uuid := Except.ok.inj h
                  subst this
                  show mapGet (mapSet s1.assignments userID w) userID = some w
                  exact mapGet_mapSet_self _ _ _
              | none =>
                  cases hex : s1.capacityExhausted with
                  | true =>
                      rw [afterLookup_start_none_exhausted userID hw hdep hsc hex]
                        at h
                      simp at h
                  | false =>
                      rw [afterLookup_start_none_other userID hw hdep hsc hex] at h
                      simp at h

theorem getContainer_ok_mapGet {s : PoolState} {userID : String}
    {q : String → Option ContainerStatus} {o : StartOutcome} {uuid : String}
    (h : (getContainer s userID q o).1 = Except.ok uuid) :
    mapGet ((getContainer s userID q o).2.1).assignments userID = some uuid := by
  cases hg : mapGet s.assignments userID with
  | none =>
      rw [getContainer_no_entry userID q o hg] at h ⊢
      exact afterLookup_ok_mapGet h
  | some existing =>
      cases hr : isContainerRunning s existing q with
      | true =>
          rw [getContainer_live o hg hr] at h ⊢
          have : existing = uuid := Except.ok.inj h
          subst this
          exact hg
      | false =>
          rw [getContainer_stale o hg hr] at h ⊢
          exact afterLookup_ok_mapGet h

/-! The health-check fold removes every tracked container whose liveness
query throws. -/

theorem count_le_of_sublist {l1 l2 : List String} (h : l1.Sublist l2)
    (u : String) : l1.count u ≤ l2.count u :=
  List.Sublist.count_le h u

theorem rfa_clears {l : List (String × String)} {u : String}
    (hcnt : (l.map Prod.snd).count u ≤ 1) :
    ∀ p ∈ (removeFirstAssignment l u).1, p.2 ≠ u := by
  induction l with
  | nil =>
      intro p hp
      simp [removeFirstAssignment] at hp
  | cons q rest ih =>
      by_cases hq : q.2 = u
      · unfold removeFirstAssignment
        rw [if_pos hq]
        intro p hp hpu
        have hcnt' : ((q :: rest).map Prod.snd).count u
            = (rest.map Prod.snd).count u + 1 := by
          simp [hq]
        have h0 : (rest.map Prod.snd).count u = 0 := by omega
        have : u ∉ rest.map Prod.snd := by
          rw [← List.count_pos_iff]
          omega
        exact this (hpu ▸ List.mem_map_of_mem Prod.snd hp)
      · unfold removeFirstAssignment
        rw [if_neg hq]
        intro p hp
        rcases List.mem_cons.mp hp with rfl | hp
        · exact hq
        · refine ih ?_ p hp
          have : ((q :: rest).map Prod.snd).count u
              = (rest.map Prod.snd).count u := by
            simp [List.count_cons, hq]
          omega

theorem healthFold_clears {u : String} {q : String → Option ContainerStatus}
    (hq : q u = none) :
    ∀ (l : List String) (acc : PoolState × Bool),
      u ∉ acc.1.startingContainers →
      (acc.1.assignments.map Prod.snd).count u ≤ 1 →
      (u ∈ l ∨ (u ∉ acc.1.warmContainers ∧ ∀ p ∈ acc.1.assignments, p.2 ≠ u)) →
      u ∉ (l.foldl (healthStep q) acc).1.warmContainers ∧
      ∀ p ∈ (l.foldl (healthStep q) acc).1.assignments, p.2 ≠ u := by
  intro l
  induction l with
  | nil =>
      intro acc hst hcnt hin
      rcases hin with hin | hin
      · cases hin
      · exact hin
  | cons a rest ih =>
      intro acc hst hcnt hin
      show u ∉ (rest.foldl (healthStep q) (healthStep q acc a)).1.warmContainers ∧
        ∀ p ∈ (rest.foldl (healthStep q) (healthStep q acc a)).1.assignments,
          p.2 ≠ u
      have hshr := healthStep_shrinks q acc a
      have hst' : u ∉ (healthStep q acc a).1.startingContainers := by
        rw [hshr.2.2.2.1]
        exact hst
      have hcnt' : ((healthStep q acc a).1.assignments.map Prod.snd).count u ≤ 1 :=
        le_trans (count_le_of_sublist (hshr.2.1.map Prod.snd) u) hcnt
      refine ih _ hst' hcnt' ?_
      by_cases hau : a = u
      · subst hau
        right
        have hrun : isContainerRunning acc.1 a q = false :=
          isRunning_false_of_throw hst hq
        unfold healthStep
        rw [hrun]
        simp only [Bool.false_eq_true, if_false]
        constructor
        · show a ∉ setDelete acc.1.warmContainers a
          intro hmem
          exact (mem_setDelete.mp hmem).2 rfl
        · show ∀ p ∈ (removeFirstAssignment acc.1.assignments a).1, p.2 ≠ a
          exact rfa_clears hcnt
      · rcases hin with hin | hin
        · rcases List.mem_cons.mp hin with h1 | h1
          · exact absurd h1.symm hau
          · exact Or.inl h1
        · right
          constructor
          · intro hmem
            exact hin.1 (hshr.1.subset hmem)
          · intro p hp
            exact hin.2 p (hshr.2.1.subset hp)

/-! The shutdown fold empties the warm set when every backend stop
succeeds, and never touches assignments. -/

theorem shutdownFold_empties (stopOk : String → Bool) :
    ∀ (l : List String) (st : PoolState),
      (∀ u ∈ st.warmContainers, u ∈ l ∧ stopOk u = true) →
      (l.foldl (fun st u =>
        if stopOk u then
          { st with warmContainers := setDelete st.warmContainers u }
        else st) st).warmContainers = [] := by
  intro l
  induction l with
  | nil =>
      intro st hst
      show st.warmContainers = []
      rcases hempty : st.warmContainers with _ | ⟨a, rest⟩
      · rfl
      · have := (hst a (by rw [hempty]; exact List.mem_cons_self _ _)).1
        cases this
  | cons a rest ih =>
      intro st hst
      show (rest.foldl _ (if stopOk a then
        { st with warmContainers := setDelete st.warmContainers a } else st)
        ).warmContainers = []
      by_cases ha : stopOk a = true
      · rw [if_pos ha]
        apply ih
        intro u hu
        have hu' := mem_setDelete.mp hu
        rcases hst u hu'.1 with ⟨hmem, hstop⟩
        rcases List.mem_cons.mp hmem with h1 | h1
        · exact absurd h1 hu'.2
        · exact ⟨h1, hstop⟩
      · rw [if_neg ha]
        apply ih
        intro u hu
        rcases hst u hu with ⟨hmem, hstop⟩
        rcases List.mem_cons.mp hmem with h1 | h1
        · subst h1
          exact absurd hstop ha
        · exact ⟨h1, hstop⟩

theorem shutdownFold_assignments (stopOk : String → Bool) :
    ∀ (l : List String) (st : PoolState),
      (l.foldl (fun st u =>
        if stopOk u then
          { st with warmContainers := setDelete st.warmContainers u }
        else st) st).assignments = st.assignments := by
  intro l
  induction l with
  | nil => intro st; rfl
  | cons a rest ih =>
      intro st
      show (rest.foldl _ (if stopOk a then
        { st with warmContainers := setDelete st.warmContainers a } else st)
        ).assignments = st.assignments
      rw [ih]
      split <;> rfl

theorem startContainer_err_cap_general (s : PoolState) (u msg : String)
    (hm : isMaxInstancesError msg = true) :
    startContainer s (StartOutcome.err u msg) =
      (none, { recordCapacityLimit s with
        startingContainers := setDelete (setAdd s.startingContainers u) u }) := by
  obtain ⟨cfg, w, a, st, km, ce, sto⟩ := s
  simp [startContainer, StartOutcome.uuid, hm, recordCapacityLimit, totalCount,
    warmCount, assignedCount]

/-! The claims. -/

/-- C1 (counterexample): as stated, the claim quantifies over states in which
the identity has "no live assignment", which includes a stale entry.  With
assignments {"b" ↦ "Y", "c" ↦ "X"}, ceiling 2, "X" reported stopped and an
empty warm set, `getContainer "c"` deletes the stale entry, which frees a slot
below the ceiling, and then performs one backend start call that succeeds —
instead of failing with a capacity error and performing zero start calls. -/
theorem claim_C1_counterexample :
    (mapGet staleAtCapacityState.assignments "c" = some "X" ∧
     isContainerRunning staleAtCapacityState "X" stoppedXQ = false ∧
     staleAtCapacityState.warmContainers = [] ∧
     staleAtCapacityState.knownMaxInstances = some 2 ∧
     totalCount staleAtCapacityState = 2) ∧
    (getContainer staleAtCapacityState "c" stoppedXQ (StartOutcome.ok "Z")).1
        = Except.ok "Z" ∧
    (getContainer staleAtCapacityState "c" stoppedXQ (StartOutcome.ok "Z")).2.2
        = 1 := by
  decide

/-- C1 (amended): when the requested identity has no assignment-map entry at
all, the warm set is empty, a ceiling is known and the total meets or exceeds
it, getContainer fails with the capacity error reporting the current total as
used and the ceiling as the limit, performs zero backend start calls, and
leaves the state unchanged. -/
theorem claim_C1 (s : PoolState) (userID : String)
    (q : String → Option ContainerStatus) (o : StartOutcome) (m : Nat)
    (hentry : mapGet s.assignments userID = none)
    (hwarm : s.warmContainers = [])
    (hm : s.knownMaxInstances = some m)
    (hfull : m ≤ totalCount s) :
    getContainer s userID q o =
      (Except.error (GetError.capacityExceeded (totalCount s) (some m)), s, 0) := by
  have hdep : capacityDepleted s = true := by
    unfold capacityDepleted
    rw [remainingCapacity_some hm]
    have hz : m - totalCount s = 0 := by omega
    rw [hz]
    rfl
  rw [getContainer_no_entry userID q o hentry,
    afterLookup_depleted userID o hwarm hdep, hm]

theorem claim_C1_witness :
    (mapGet atCapacityState.assignments "c" = none ∧
     atCapacityState.warmContainers = [] ∧
     atCapacityState.knownMaxInstances = some 2 ∧
     2 ≤ totalCount atCapacityState) ∧
    getContainer atCapacityState "c" allRunningQ (StartOutcome.ok "Z")
      = (Except.error (GetError.capacityExceeded (totalCount atCapacityState)
          (some 2)), atCapacityState, 0) :=
  ⟨by decide, claim_C1 atCapacityState "c" allRunningQ (StartOutcome.ok "Z") 2
    (by decide) (by decide) (by decide) (by decide)⟩

/-- C3: every start attempt failing with the max_instances signal records
`knownCeiling = warmCount + assignedCount` as counted before the attempt (the
failed instance was never added to either set, which stay unchanged), sets
`capacityExhausted`, and writes the new ceiling to durable storage. -/
theorem claim_C3 (s : PoolState) (u msg : String)
    (hcap : isMaxInstancesError msg = true) :
    (startContainer s (StartOutcome.err u msg)).1 = none ∧
    ((startContainer s (StartOutcome.err u msg)).2).knownMaxInstances
        = some (totalCount s) ∧
    ((startContainer s (StartOutcome.err u msg)).2).capacityExhausted = true ∧
    ((startContainer s (StartOutcome.err u msg)).2).storage.knownMaxInstances
        = some (totalCount s) ∧
    ((startContainer s (StartOutcome.err u msg)).2).warmContainers
        = s.warmContainers ∧
    ((startContainer s (StartOutcome.err u msg)).2).assignments
        = s.assignments := by
  rw [startContainer_err_cap_general s u msg hcap]
  exact ⟨rfl, rfl, rfl, rfl, rfl, rfl⟩

theorem claim_C3_witness :
    isMaxInstancesError maxInstancesMessage = true ∧
    ((startContainer atCapacityState
        (StartOutcome.err "u1" maxInstancesMessage)).1 = none ∧
     ((startContainer atCapacityState
        (StartOutcome.err "u1" maxInstancesMessage)).2).knownMaxInstances
         = some (totalCount atCapacityState) ∧
     ((startContainer atCapacityState
        (StartOutcome.err "u1" maxInstancesMessage)).2).capacityExhausted = true ∧
     ((startContainer atCapacityState
        (StartOutcome.err "u1" maxInstancesMessage)).2).storage.knownMaxInstances
         = some (totalCount atCapacityState) ∧
     ((startContainer atCapacityState
        (StartOutcome.err "u1" maxInstancesMessage)).2).warmContainers
         = atCapacityState.warmContainers ∧
     ((startContainer atCapacityState
        (StartOutcome.err "u1" maxInstancesMessage)).2).assignments
         = atCapacityState.assignments) :=
  ⟨by decide, claim_C3 atCapacityState "u1" maxInstancesMessage (by decide)⟩

/-- C6: the alarm handler re-arms the timer for now + refreshInterval no
matter what the body of its try block did — `body` is an arbitrary (possibly
throwing) execution of the health-check, pool-adjustment and keep-alive steps,
returning the state reached when it finished or threw. -/
theorem claim_C6 (s : PoolState) (now : Nat)
    (body : PoolState → PoolState × Bool)
    (hbody : ((body { s with capacityExhausted := false }).1).config.refreshInterval
        = s.config.refreshInterval) :
    (alarm s now body).storage.alarmTime
      = some (now + s.config.refreshInterval) := by
  show some (now
      + (body { s with capacityExhausted := false }).1.config.refreshInterval)
    = some (now + s.config.refreshInterval)
  rw [hbody]

theorem claim_C6_witness :
    ((fun st => (st, true)) { initialState with capacityExhausted := false }
        : PoolState × Bool).1.config.refreshInterval
      = initialState.config.refreshInterval ∧
    (alarm initialState 5 (fun st => (st, true))).storage.alarmTime
      = some (5 + initialState.config.refreshInterval) :=
  ⟨rfl, claim_C6 initialState 5 (fun st => (st, true)) rfl⟩

/-- C7 (counterexample): two divergences from the claim as stated.  First,
with a stale capacityExhausted flag left by an earlier capacity hit (ceiling
2, one assigned instance, so remainingCapacity = 1 > 0), a non-capacity start
failure makes getContainer throw the capacity-exceeded error instead of the
start error.  Second, when the identity holds a stale entry ("no live
assignment"), the call does fail with the start error but deletes the stale
entry, so the assignment map is not left unchanged. -/
theorem claim_C7_counterexample :
    (mapGet staleFlagState.assignments "c" = none ∧
     staleFlagState.warmContainers = [] ∧
     remainingCapacity staleFlagState = some 1 ∧
     isMaxInstancesError "boom" = false ∧
     (getContainer staleFlagState "c" allRunningQ
        (StartOutcome.err "u1" "boom")).1
       = Except.error (GetError.capacityExceeded 1 (some 2))) ∧
    (mapGet staleEntryState.assignments "c" = some "X" ∧
     isContainerRunning staleEntryState "X" stoppedXQ = false ∧
     staleEntryState.warmContainers = [] ∧
     (getContainer staleEntryState "c" stoppedXQ
        (StartOutcome.err "u1" "boom")).1 = Except.error GetError.startFailed ∧
     (getContainer staleEntryState "c" stoppedXQ
        (StartOutcome.err "u1" "boom")).2.1.assignments = []) := by
  decide

/-- C7 (amended): when the identity has no assignment-map entry, no warm
instance exists, capacity remains, the per-pass capacityExhausted flag is
clear and no start is in flight, a non-capacity backend start failure makes
getContainer fail with the start error (not a capacity error) after exactly
one start call, the provisionally reserved record is discarded, and the pool
state — warm set and assignment map included — is left unchanged. -/
theorem claim_C7 (s : PoolState) (userID u msg : String)
    (q : String → Option ContainerStatus)
    (hentry : mapGet s.assignments userID = none)
    (hwarm : s.warmContainers = [])
    (hdep : capacityDepleted s = false)
    (hex : s.capacityExhausted = false)
    (hst : s.startingContainers = [])
    (hmax : isMaxInstancesError msg = false) :
    getContainer s userID q (StartOutcome.err u msg)
      = (Except.error GetError.startFailed, s, 1) := by
  rw [getContainer_no_entry userID q _ hentry]
  exact afterLookup_start_none_other userID hwarm hdep
    (startContainer_err_other_eq s u msg hst hmax) hex

theorem claim_C7_witness :
    (mapGet belowCapacityState.assignments "c" = none ∧
     belowCapacityState.warmContainers = [] ∧
     capacityDepleted belowCapacityState = false ∧
     belowCapacityState.capacityExhausted = false ∧
     belowCapacityState.startingContainers = [] ∧
     isMaxInstancesError "boom" = false) ∧
    getContainer belowCapacityState "c" allRunningQ (StartOutcome.err "u1" "boom")
      = (Except.error GetError.startFailed, belowCapacityState, 1) :=
  ⟨by decide, claim_C7 belowCapacityState "c" "u1" "boom" allRunningQ
    (by decide) (by decide) (by decide) (by decide) (by decide) (by decide)⟩

/-- C9: shutdownIdle (shutdownPrewarmed) stops and removes every warm
instance — given that the backend stop calls succeed, as stop is best-effort
and a failed stop keeps the container in the warm set — and leaves the
assignment map (and thus every assigned instance) untouched. -/
theorem claim_C9 (s : PoolState) (stopOk : String → Bool)
    (h : ∀ u ∈ s.warmContainers, stopOk u = true) :
    (shutdownPrewarmed s stopOk).warmContainers = [] ∧
    (shutdownPrewarmed s stopOk).assignments = s.assignments := by
  unfold shutdownPrewarmed
  dsimp only
  constructor
  · rw [persist_warm]
    exact shutdownFold_empties stopOk s.warmContainers s (fun u hu => ⟨hu, h u hu⟩)
  · rw [persist_assignments]
    exact shutdownFold_assignments stopOk s.warmContainers s

theorem claim_C9_witness :
    (∀ u ∈ warmPairState.warmContainers, (fun _ => true) u = true) ∧
    ((shutdownPrewarmed warmPairState (fun _ => true)).warmContainers = [] ∧
     (shutdownPrewarmed warmPairState (fun _ => true)).assignments
       = warmPairState.assignments) :=
  ⟨by decide, claim_C9 warmPairState (fun _ => true) (by decide)⟩

/-- C2: at a fully used known ceiling with the warm target unmet (the pass
entered with the per-pass flag clear, no start in flight, and the
reachable-state bound total ≤ ceiling), the adjustment step performs the
probe as its single extra start attempt: a failed probe is the only attempt
of the pass and leaves knownCeiling with the value it had before; a
successful probe clears knownCeiling at the moment it commits, puts the new
instance in the warm set, and counts toward the target — the whole pass
performs at least one and at most warmTarget − warmCount attempts. -/
theorem claim_C2 (s : PoolState) (out : Nat → StartOutcome)
    (stopOk : String → Bool) (m : Nat)
    (h0 : s.capacityExhausted = false)
    (hst : s.startingContainers = [])
    (hm : s.knownMaxInstances = some m)
    (hz : remainingCapacity s = some 0)
    (hw : warmCount s < s.config.warmTarget)
    (hle : totalCount s ≤ m) :
    (∀ u msg, out 0 = StartOutcome.err u msg →
      (adjustPool s out stopOk).2 = 1 ∧
      (adjustPool s out stopOk).1.knownMaxInstances = some m ∧
      (adjustPool s out stopOk).1.warmContainers = s.warmContainers) ∧
    (∀ u, out 0 = StartOutcome.ok u →
      (probeStep s (out 0)).1.knownMaxInstances = none ∧
      u ∈ (adjustPool s out stopOk).1.warmContainers ∧
      1 ≤ (adjustPool s out stopOk).2 ∧
      (adjustPool s out stopOk).2 ≤ s.config.warmTarget - warmCount s) := by
  have hcond : remainingCapacity s = some 0 ∧ s.knownMaxInstances ≠ none := by
    refine ⟨hz, ?_⟩
    rw [hm]
    simp
  have htot : totalCount s = m := by
    have h1 := remainingCapacity_some hm
    rw [hz] at h1
    have h2 := Option.some.inj h1
    omega
  constructor
  · intro u msg hout
    rw [adjustPool_probe_fail out stopOk hw hcond hout]
    refine ⟨rfl, ?_, ?_⟩
    · show (startContainer s (StartOutcome.err u msg)).2.knownMaxInstances = some m
      by_cases hmax : isMaxInstancesError msg = true
      · rw [startContainer_err_cap_general s u msg hmax]
        show some (totalCount s) = some m
        rw [htot]
      · have hmax' : isMaxInstancesError msg = false := by simpa using hmax
        rw [startContainer_err_other_eq s u msg hst hmax']
        exact hm
    · show (startContainer s (StartOutcome.err u msg)).2.warmContainers
        = s.warmContainers
      exact startContainer_snd_warm s _
  · intro u hout
    have hpk : (probeStep s (out 0)).1.knownMaxInstances = none := by
      rw [hout, probeStep_ok s u hst]
      rfl
    refine ⟨hpk, ?_, ?_, ?_⟩
    · rw [adjustPool_probe_ok out stopOk hw hcond hout hst]
      apply scaleUpLoop_warm_mono
      show u ∈ setAdd s.warmContainers u
      exact mem_setAdd.mpr (Or.inr rfl)
    · rw [adjustPool_probe_ok out stopOk hw hcond hout hst]
      exact scaleUpLoop_count_ge out _ _ 1
    · rw [adjustPool_probe_ok out stopOk hw hcond hout hst]
      have hnone : (persist { s with
          knownMaxInstances := none,
          warmContainers := setAdd s.warmContainers u }).knownMaxInstances
          = none := rfl
      have hcount := scaleUpLoop_count_le out
        (persist { s with
          knownMaxInstances := none,
          warmContainers := setAdd s.warmContainers u })
        (s.config.warmTarget - warmCount s - 1) 1
      rw [remainingCapacity_none hnone, minWithCapacity_none] at hcount
      omega

theorem claim_C2_witness :
    (probeScenarioState.capacityExhausted = false ∧
     probeScenarioState.startingContainers = [] ∧
     probeScenarioState.knownMaxInstances = some 2 ∧
     remainingCapacity probeScenarioState = some 0 ∧
     warmCount probeScenarioState < probeScenarioState.config.warmTarget ∧
     totalCount probeScenarioState ≤ 2) ∧
    ((∀ u msg, okStream 0 = StartOutcome.err u msg →
      (adjustPool probeScenarioState okStream (fun _ => true)).2 = 1 ∧
      (adjustPool probeScenarioState okStream
        (fun _ => true)).1.knownMaxInstances = some 2 ∧
      (adjustPool probeScenarioState okStream (fun _ => true)).1.warmContainers
        = probeScenarioState.warmContainers) ∧
    (∀ u, okStream 0 = StartOutcome.ok u →
      (probeStep probeScenarioState (okStream 0)).1.knownMaxInstances = none ∧
      u ∈ (adjustPool probeScenarioState okStream
        (fun _ => true)).1.warmContainers ∧
      1 ≤ (adjustPool probeScenarioState okStream (fun _ => true)).2 ∧
      (adjustPool probeScenarioState okStream (fun _ => true)).2
        ≤ probeScenarioState.config.warmTarget - warmCount probeScenarioState)) :=
  ⟨by decide, claim_C2 probeScenarioState okStream (fun _ => true) 2
    (by decide) (by decide) (by decide) (by decide) (by decide) (by decide)⟩

/-- C4: in every reachable pool state, warmCount + assignedCount never
exceeds a non-null knownCeiling.  States are observed at operation
boundaries, so the transient mid-probe excess the spec allows is not
visible; reachability closes over every public operation, so each of them
preserves the bound. -/
theorem claim_C4 {s : PoolState} (h : Reachable s) (m : Nat)
    (hm : s.knownMaxInstances = some m) : totalCount s ≤ m :=
  (reachable_inv h).2 m hm

theorem claim_C4_witness :
    ((getContainer initialState "a" throwingQ
        (StartOutcome.err "u1" maxInstancesMessage)).2.1).knownMaxInstances
      = some 0 ∧
    totalCount ((getContainer initialState "a" throwingQ
        (StartOutcome.err "u1" maxInstancesMessage)).2.1) ≤ 0 :=
  ⟨by decide,
   claim_C4 (Reachable.getContainer initialState "a" throwingQ
      (StartOutcome.err "u1" maxInstancesMessage) Reachable.init
      (show (StartOutcome.err "u1" maxInstancesMessage).uuid
          ∉ trackedIds initialState by decide)) 0 (by decide)⟩

/-- C5: in every reachable pool state each identity has at most one
assignment entry (duplicate-free keys), no two identities share an instance
(duplicate-free values), and no instance is simultaneously warm and
assigned; reachability closes over every operation, so each preserves
this. -/
theorem claim_C5 {s : PoolState} (h : Reachable s) :
    (s.assignments.map Prod.fst).Nodup ∧
    (s.assignments.map Prod.snd).Nodup ∧
    ∀ u ∈ s.warmContainers, u ∉ assignedValues s.assignments :=
  ⟨(reachable_inv h).1.1, (reachable_inv h).1.2.1, (reachable_inv h).1.2.2.2.1⟩

theorem claim_C5_witness :
    ((getContainer initialState "a" throwingQ
        (StartOutcome.ok "X")).2.1.assignments = [("a", "X")]) ∧
    (((getContainer initialState "a" throwingQ
        (StartOutcome.ok "X")).2.1.assignments.map Prod.fst).Nodup ∧
     ((getContainer initialState "a" throwingQ
        (StartOutcome.ok "X")).2.1.assignments.map Prod.snd).Nodup ∧
     ∀ u ∈ (getContainer initialState "a" throwingQ
        (StartOutcome.ok "X")).2.1.warmContainers,
       u ∉ assignedValues (getContainer initialState "a" throwingQ
        (StartOutcome.ok "X")).2.1.assignments) :=
  ⟨by decide,
   claim_C5 (Reachable.getContainer initialState "a" throwingQ
      (StartOutcome.ok "X") Reachable.init
      (show (StartOutcome.ok "X").uuid ∉ trackedIds initialState by decide))⟩

/-- C8: sticky mapping — when getInstance returned an id and the backend
still reports that instance running, an immediately following getInstance for
the same identity returns the same id, performs no start call, and leaves the
pool state exactly unchanged. -/
theorem claim_C8 (s : PoolState) (userID : String)
    (q q2 : String → Option ContainerStatus) (o o2 : StartOutcome)
    (uuid : String)
    (h1 : (getContainer s userID q o).1 = Except.ok uuid)
    (h2 : q2 uuid = some ContainerStatus.running) :
    getContainer ((getContainer s userID q o).2.1) userID q2 o2
      = (Except.ok uuid, (getContainer s userID q o).2.1, 0) := by
  have hlookup := getContainer_ok_mapGet h1
  have hrun : isContainerRunning ((getContainer s userID q o).2.1) uuid q2
      = true := isRunning_true_of_running h2
  exact getContainer_live o2 hlookup hrun

theorem claim_C8_witness :
    ((getContainer initialState "a" throwingQ (StartOutcome.ok "X")).1
        = Except.ok "X" ∧
     allRunningQ "X" = some ContainerStatus.running) ∧
    getContainer ((getContainer initialState "a" throwingQ
        (StartOutcome.ok "X")).2.1) "a" allRunningQ (StartOutcome.ok "Y")
      = (Except.ok "X",
         (getContainer initialState "a" throwingQ (StartOutcome.ok "X")).2.1,
         0) :=
  ⟨by decide, claim_C8 initialState "a" throwingQ allRunningQ
    (StartOutcome.ok "X") (StartOutcome.ok "Y") "X" (by decide) (by decide)⟩

/-- C10: a thrown liveness query means "not running": isContainerRunning
reports false for any instance not currently starting; the health check of a
reconciliation pass then removes such a tracked instance from both the warm
set and the assignment map (values being duplicate-free in reachable
states); and getContainer treats an existing assignment whose query throws
as stale, proceeding exactly as if the entry had been deleted first. -/
theorem claim_C10 (s : PoolState) (u userID : String)
    (q : String → Option ContainerStatus) (o : StartOutcome)
    (h1 : u ∉ s.startingContainers) (h2 : q u = none)
    (hcnt : (s.assignments.map Prod.snd).count u ≤ 1) :
    isContainerRunning s u q = false ∧
    (u ∈ trackedIds s →
      u ∉ (checkContainerHealth s q).warmContainers ∧
      ∀ p ∈ (checkContainerHealth s q).assignments, p.2 ≠ u) ∧
    (mapGet s.assignments userID = some u →
      getContainer s userID q o =
        getContainerAfterLookup
          (persist { s with assignments := mapDelete s.assignments userID })
          userID o) := by
  have hrun : isContainerRunning s u q = false := isRunning_false_of_throw h1 h2
  refine ⟨hrun, ?_, ?_⟩
  · intro htr
    have hfold := healthFold_clears h2
      (s.warmContainers ++ assignedValues s.assignments) (s, false) h1 hcnt
      (Or.inl htr)
    unfold checkContainerHealth
    dsimp only
    split
    · constructor
      · rw [persist_warm]
        exact hfold.1
      · intro p hp
        rw [persist_assignments] at hp
        exact hfold.2 p hp
    · exact hfold
  · intro hentry
    exact getContainer_stale o hentry hrun

theorem claim_C10_witness :
    ("w1" ∉ warmPairState.startingContainers ∧
     throwingQ "w1" = none ∧
     (warmPairState.assignments.map Prod.snd).count "w1" ≤ 1) ∧
    (isContainerRunning warmPairState "w1" throwingQ = false ∧
     ("w1" ∈ trackedIds warmPairState →
       "w1" ∉ (checkContainerHealth warmPairState throwingQ).warmContainers ∧
       ∀ p ∈ (checkContainerHealth warmPairState throwingQ).assignments,
         p.2 ≠ "w1") ∧
     (mapGet warmPairState.assignments "zz" = some "w1" →
       getContainer warmPairState "zz" throwingQ (StartOutcome.ok "N") =
         getContainerAfterLookup
           (persist { warmPairState with
              assignments := mapDelete warmPairState.assignments "zz" })
           "zz" (StartOutcome.ok "N"))) :=
  ⟨by decide, claim_C10 warmPairState "w1" "zz" throwingQ (StartOutcome.ok "N")
    (by decide) (by decide) (by decide)⟩

end WarmPool
